import Mathlib

/-!
Shallow embedding of `bugwarrior/services/jira.py` (the Jira issue
normalizer of bugwarrior): the `JiraIssue` field mappers
(`get_url`, `get_priority`, `get_tags`, `get_entry`, `get_annotations`,
`get_project`, `get_summary`, `get_estimate`, `get_fix_version`,
`to_taskwarrior`) and the per-case extra-metadata construction of
`JiraService.issues`.

Raw API payloads are JSON-like dynamic values (`JVal`); Python dictionary
and list accesses are modelled as explicitly fallible operations
returning `Except PyErr`, with `PyErr` naming the Python exception class
raised, so that `try/except` clauses of the source translate to explicit
handling of exactly the caught constructors.
-/

set_option autoImplicit false

/-- A JSON-like Python value: `None`, booleans, numbers (modelled as
rationals; Python 3 true division is exact on these), strings, lists and
string-keyed dictionaries (association lists, insertion order kept). -/
inductive JVal where
  | null : JVal
  | bool : Bool → JVal
  | num : ℚ → JVal
  | str : String → JVal
  | arr : List JVal → JVal
  | obj : List (String × JVal) → JVal

/-- The Python exception classes the embedded code can raise or catch. -/
inductive PyErr where
  | keyError : PyErr
  | typeError : PyErr
  | attributeError : PyErr
  | indexError : PyErr
  | valueError : PyErr
deriving DecidableEq

/-- Python subscription `v[k]` with a string key: on a dict, the value or
`KeyError`; on any non-dict (None, bool, number, string, list) a string
subscript raises `TypeError`. -/
def pyGetItem (v : JVal) (k : String) : Except PyErr JVal :=
  match v with
  | .obj fs =>
    match fs.lookup k with
    | some x => .ok x
    | none => .error .keyError
  | _ => .error .typeError

/-- Python `v.get(k, d)`: on a dict, the value or the default `d`; on any
non-dict value, attribute access `.get` raises `AttributeError`. -/
def pyGet (v : JVal) (k : String) (d : JVal) : Except PyErr JVal :=
  match v with
  | .obj fs => .ok ((fs.lookup k).getD d)
  | _ => .error .attributeError

/-- Python subscription `v[i]` with a non-negative integer index: list
element or `IndexError`; string character; a dict looks the integer up as
a key (the embedded dicts are string-keyed, so always `KeyError`); other
values raise `TypeError`. -/
def pyIndex (v : JVal) (i : Nat) : Except PyErr JVal :=
  match v with
  | .arr xs =>
    match xs.get? i with
    | some x => .ok x
    | none => .error .indexError
  | .str s =>
    match s.data.get? i with
    | some c => .ok (.str c.toString)
    | none => .error .indexError
  | .obj _ => .error .keyError
  | _ => .error .typeError

/-- Python iteration `for x in v`: a list yields its elements, a string
its characters, a dict its keys; other values raise `TypeError`. -/
def pyIter (v : JVal) : Except PyErr (List JVal) :=
  match v with
  | .arr xs => .ok xs
  | .str s => .ok (s.data.map (fun c => .str c.toString))
  | .obj fs => .ok (fs.map (fun p => .str p.1))
  | _ => .error .typeError

mutual
/-- Python `repr` of a JSON-like value (numbers are rendered through the
rational `toString`, an approximation of Python numeric formatting that
agrees on integers). -/
def pyRepr : JVal → String
  | .null => "None"
  | .bool true => "True"
  | .bool false => "False"
  | .num n => toString n
  | .str s => "\x27" ++ s ++ "\x27"
  | .arr xs => "[" ++ pyReprList xs ++ "]"
  | .obj fs => "\x7b" ++ pyReprObj fs ++ "\x7d"

/-- Comma-separated `repr`s of list elements. -/
def pyReprList : List JVal → String
  | [] => ""
  | [x] => pyRepr x
  | x :: xs => pyRepr x ++ ", " ++ pyReprList xs

/-- Comma-separated `key: value` `repr`s of dict entries. -/
def pyReprObj : List (String × JVal) → String
  | [] => ""
  | [(k, v)] => "\x27" ++ k ++ "\x27: " ++ pyRepr v
  | (k, v) :: fs => "\x27" ++ k ++ "\x27: " ++ pyRepr v ++ ", " ++ pyReprObj fs
end

/-- Python `str`: a string is itself, everything else as `repr`
(`str(None) = "None"`, `str(True) = "True"`, ...). -/
def pyStr : JVal → String
  | .str s => s
  | v => pyRepr v

/-- The origin configuration dictionary handed to each issue
(`JiraService.get_service_metadata` plus the generic
`default_priority` setting): base url, default priority, the
label-import toggle and the label template. -/
structure Origin where (url : String) (default_priority : String) (import_labels_as_tags : Bool) (label_template : String)

/-- The extra-metadata dictionary attached by `JiraService.issues`:
optional schema version (`extra.get(jira_version)`) and the optional
pre-fetched annotation strings (`extra.get(annotations, [])`). -/
structure Extra where (jira_version : Option Int) (annotations : Option (List String))

/-- Source `JiraIssue.PRIORITY_MAP`: the static Jira-priority-name to
taskwarrior-priority table. -/
def PRIORITY_MAP : List (String × String) :=
  [("Highest", "H"), ("High", "H"), ("Medium", "M"), ("Low", "L"),
   ("Lowest", "L"), ("Trivial", "L"), ("Minor", "L"), ("Major", "M"),
   ("Critical", "H"), ("Blocker", "H")]

/-- The final lookup `PRIORITY_MAP.get(value, default)` of
`JiraIssue.get_priority`: a string key is looked up in the table, a
hashable non-string key (None, bool, number) is never in the
string-keyed table so yields the default, and an unhashable key (dict,
list) raises `TypeError`. -/
def priorityMapGet (v : JVal) (default : String) : Except PyErr String :=
  match v with
  | .str s => .ok ((PRIORITY_MAP.lookup s).getD default)
  | .obj _ => .error .typeError
  | .arr _ => .error .typeError
  | _ => .ok default

/-- Source `JiraIssue.get_priority`: read `record[fields].get(priority)`,
try to extract `value[name]` catching only `TypeError` (falling back
to `str(value)`), then look the result up in `PRIORITY_MAP` with
`origin[default_priority]` as default. -/
def get_priority (origin : Origin) (record : JVal) : Except PyErr String := do
  let fields ← pyGetItem record "fields"
  let value ← pyGet fields "priority" .null
  let value2 ←
    match pyGetItem value "name" with
    | .ok x => pure x
    | .error .typeError => pure (JVal.str (pyStr value))
    | .error e => .error e
  priorityMapGet value2 origin.default_priority

/-- Source `JiraIssue.get_url`: `origin[url] + /browse/ + record[key]`;
concatenating a non-string key raises `TypeError`. -/
def get_url (origin : Origin) (record : JVal) : Except PyErr String := do
  let k ← pyGetItem record "key"
  match k with
  | .str s => .ok (origin.url ++ "/browse/" ++ s)
  | _ => .error .typeError

/-- Python `s.rsplit(sep, 1)` for a one-character separator string: the
whole string if the separator is absent, otherwise the part before the
last separator and the part after it. -/
def rsplitLast (s : String) (sep : String) : List String :=
  match s.splitOn sep with
  | [] => [s]
  | [p] => [p]
  | parts => [String.intercalate sep parts.dropLast, parts.getLastD ""]

/-- Source `JiraIssue.get_project`: `record[key].rsplit(-, 1)[0]`;
`.rsplit` on a non-string raises `AttributeError`. -/
def get_project (record : JVal) : Except PyErr String := do
  let k ← pyGetItem record "key"
  match k with
  | .str s => .ok ((rsplitLast s "-").headD "")
  | _ => .error .attributeError

/-- Source `JiraIssue.get_number`: `record[key].rsplit(-, 1)[1]`; raises
`IndexError` when the key has no separator. -/
def get_number (record : JVal) : Except PyErr String := do
  let k ← pyGetItem record "key"
  match k with
  | .str s =>
    match (rsplitLast s "-").get? 1 with
    | some p => .ok p
    | none => .error .indexError
  | _ => .error .attributeError

/-- A `datetime.datetime` value as produced by `strptime`: calendar and
clock fields plus microseconds. -/
structure PyDateTime where (year : Nat) (month : Nat) (day : Nat) (hour : Nat) (minute : Nat) (second : Nat) (microsecond : Nat)
deriving DecidableEq

/-- Numeric value of a decimal digit character. -/
def digitVal (c : Char) : Nat := c.toNat - 48

/-- Decimal digit character test. -/
def isDigitChar (c : Char) : Bool := decide (48 ≤ c.toNat) && decide (c.toNat ≤ 57)

/-- The decimal digit character for `n % 10`. -/
def digitChar (n : Nat) : Char := Char.ofNat (48 + n % 10)

/-- Parse exactly two decimal digits, returning the value and the rest. -/
def parse2 : List Char → Option (Nat × List Char)
  | c1 :: c2 :: rest =>
    if isDigitChar c1 && isDigitChar c2 then
      some (10 * digitVal c1 + digitVal c2, rest)
    else none
  | _ => none

/-- Parse exactly four decimal digits, returning the value and the rest. -/
def parse4 : List Char → Option (Nat × List Char)
  | c1 :: c2 :: c3 :: c4 :: rest =>
    if isDigitChar c1 && isDigitChar c2 && isDigitChar c3 && isDigitChar c4 then
      some (1000 * digitVal c1 + 100 * digitVal c2 + 10 * digitVal c3 + digitVal c4, rest)
    else none
  | _ => none

/-- Expect one literal character. -/
def expectChar (c : Char) : List Char → Option (List Char)
  | c1 :: rest => if c1 = c then some rest else none
  | [] => none

/-- The `%f` directive at the end of the format: the whole remaining
input must be one to six decimal digits, scaled to microseconds (a
shorter fraction is padded with trailing zeros, as CPython does). -/
def parseFracTail (cs : List Char) : Option Nat :=
  if 1 ≤ cs.length ∧ cs.length ≤ 6 ∧ cs.all isDigitChar = true then
    some ((cs.foldl (fun a c => 10 * a + digitVal c) 0) * 10 ^ (6 - cs.length))
  else none

/-- Day count of a month, with the Gregorian leap-year rule, as validated
by the `datetime.datetime` constructor. -/
def daysInMonth (year : Nat) (month : Nat) : Nat :=
  if month = 2 then
    if year % 4 = 0 ∧ (year % 100 ≠ 0 ∨ year % 400 = 0) then 29 else 28
  else if month = 4 ∨ month = 6 ∨ month = 9 ∨ month = 11 then 30
  else 31

/-- Modelled library behaviour: `datetime.strptime(s, %Y-%m-%dT%H:%M:%S.%f)`
for the canonical zero-padded fixed-width rendering of that format (the
shape Jira emits): four year digits, two digits for each other field, the
literal separators, and a one-to-six digit fraction consuming the rest of
the input; field ranges are validated as the `datetime` constructor does.
Returns `none` where CPython raises `ValueError`. -/
def strptimeISO (s : String) : Option PyDateTime := do
  let cs := s.data
  let (year, cs) ← parse4 cs
  let cs ← expectChar (Char.ofNat 45) cs
  let (month, cs) ← parse2 cs
  let cs ← expectChar (Char.ofNat 45) cs
  let (day, cs) ← parse2 cs
  let cs ← expectChar (Char.ofNat 84) cs
  let (hour, cs) ← parse2 cs
  let cs ← expectChar (Char.ofNat 58) cs
  let (minute, cs) ← parse2 cs
  let cs ← expectChar (Char.ofNat 58) cs
  let (second, cs) ← parse2 cs
  let cs ← expectChar (Char.ofNat 46) cs
  let microsecond ← parseFracTail cs
  if 1 ≤ month ∧ month ≤ 12 ∧ 1 ≤ day ∧ day ≤ daysInMonth year month ∧
      hour ≤ 23 ∧ minute ≤ 59 ∧ second ≤ 59 ∧ 1 ≤ year then
    some ⟨year, month, day, hour, minute, second, microsecond⟩
  else none

/-- Zero-pad a number to two decimal digits (values below 100). -/
def pad2 (n : Nat) : String := String.mk [digitChar (n / 10), digitChar n]

/-- Zero-pad a number to four decimal digits (values below 10000). -/
def pad4 (n : Nat) : String :=
  String.mk [digitChar (n / 1000), digitChar (n / 100), digitChar (n / 10), digitChar n]

/-- Modelled library behaviour: `timestamp.strftime(%Y%m%dT%H%M%S)` —
the compact whole-second rendering; microseconds are not printed. -/
def strftimeCompact (dt : PyDateTime) : String :=
  pad4 dt.year ++ pad2 dt.month ++ pad2 dt.day ++ "T" ++
    pad2 dt.hour ++ pad2 dt.minute ++ pad2 dt.second

/-- The body of `JiraIssue.get_entry` on the `created` string: strip the
last five characters as the timezone offset, parse the rest with
`%Y-%m-%dT%H:%M:%S.%f`, and append the offset verbatim to the compact
rendering. A failed parse raises `ValueError` (uncaught in the source). -/
def normalizeDate (s : String) : Except PyErr String :=
  let timestamp := String.mk (s.data.take (s.data.length - 5))
  let timezone := String.mk (s.data.drop (s.data.length - 5))
  match strptimeISO timestamp with
  | some dt => .ok (strftimeCompact dt ++ timezone)
  | none => .error .valueError

/-- Source `JiraIssue.get_entry`: normalize `record[fields][created]`;
slicing or parsing a non-string raises `TypeError`. -/
def get_entry (record : JVal) : Except PyErr String := do
  let fields ← pyGetItem record "fields"
  let created ← pyGetItem fields "created"
  match created with
  | .str s => normalizeDate s
  | _ => .error .typeError

/-- Re-rendering of a parsed timestamp back into the input format of
`get_entry`, with a zero fraction: the inverse direction used to state
in what sense the normalization is idempotent. -/
def isoRenderZero (dt : PyDateTime) : String :=
  pad4 dt.year ++ "-" ++ pad2 dt.month ++ "-" ++ pad2 dt.day ++ "T" ++
    pad2 dt.hour ++ ":" ++ pad2 dt.minute ++ ":" ++ pad2 dt.second ++ ".0"

/-- Scan up to the closing `\x7d\x7d`, returning the variable name and
the remaining characters, or nothing when the braces are unclosed. -/
def takeVar : List Char → Option (String × List Char)
  | [] => none
  | [_] => none
  | c1 :: c2 :: rest =>
    if c1 = Char.ofNat 125 ∧ c2 = Char.ofNat 125 then some ("", rest)
    else
      match takeVar (c2 :: rest) with
      | some (name, rest2) => some (c1.toString ++ name, rest2)
      | none => none

/-- The character scan behind `renderTemplate`; the fuel argument (at
least the input length plus one) makes the recursion structural. -/
def renderChars (ctx : List (String × JVal)) : Nat → List Char → String
  | 0, _ => ""
  | _ + 1, [] => ""
  | _ + 1, [c] => c.toString
  | fuel + 1, c1 :: c2 :: rest =>
    if c1 = Char.ofNat 123 ∧ c2 = Char.ofNat 123 then
      match takeVar rest with
      | some (name, rest2) =>
        (match ctx.lookup name with
         | some v => pyStr v
         | none => "") ++ renderChars ctx fuel rest2
      | none => c1.toString ++ renderChars ctx fuel (c2 :: rest)
    else c1.toString ++ renderChars ctx fuel (c2 :: rest)

/-- Modelled from the spec: the jinja2 `Template.render` used by
`get_tags` is not part of this repository; the spec describes it as a
string template with substitution variables rendered against the payload
context ("a user-supplied template string with a single substitution
variable", default template `\x7b\x7blabel\x7d\x7d`, "full access to the
entire raw payload as template context"). Each `\x7b\x7bname\x7d\x7d`
occurrence is replaced by the string form of `context[name]`, an unknown
variable rendering as the empty string. -/
def renderTemplate (tmpl : String) (ctx : List (String × JVal)) : String :=
  renderChars ctx (tmpl.data.length + 1) tmpl.data

/-- Python `dict.update` with a single key
(`context.update(\x7blabel: label\x7d)`): replace the value at an
existing key, keeping its position, else append the new binding at the
end (Python dict keys are unique). -/
def dictUpdate (d : List (String × JVal)) (k : String) (v : JVal) : List (String × JVal) :=
  match d with
  | [] => [(k, v)]
  | p :: ps => if p.1 = k then (k, v) :: ps else p :: dictUpdate ps k v

/-- The loop of `JiraIssue.get_tags`: one mutable context dictionary,
re-updated with the current label and rendered once per label. -/
def tagsLoop (tmpl : String) (ctx : List (String × JVal)) : List JVal → List String
  | [] => []
  | l :: ls =>
    let ctx2 := dictUpdate ctx "label" l
    renderTemplate tmpl ctx2 :: tagsLoop tmpl ctx2 ls

/-- Source `JiraIssue.get_tags`: the empty list when
`origin[import_labels_as_tags]` is off; otherwise render
`origin[label_template]` once per entry of
`record.get(fields, \x7b\x7d).get(labels, [])` against a copy of the
record extended with the current `label`. -/
def get_tags (origin : Origin) (record : JVal) : Except PyErr (List String) :=
  if origin.import_labels_as_tags = false then .ok []
  else
    match record with
    | .obj rfs => do
      let fields ← pyGet (.obj rfs) "fields" (.obj [])
      let labelsV ← pyGet fields "labels" (.arr [])
      let labels ← pyIter labelsV
      .ok (tagsLoop origin.label_template rfs labels)
    | _ => .error .attributeError

/-- Source `JiraIssue.get_annotations`: `extra.get(annotations, [])`. -/
def get_annotations (extra : Extra) : List String :=
  extra.annotations.getD []

/-- Source `JiraIssue.get_summary`: under schema version 4 the summary value is
nested as `record[fields][summary][value]`, otherwise it is
`record[fields][summary]`; lookups are not guarded. -/
def get_summary (extra : Extra) (record : JVal) : Except PyErr JVal :=
  if extra.jira_version = some 4 then do
    let fields ← pyGetItem record "fields"
    let s ← pyGetItem fields "summary"
    pyGetItem s "value"
  else do
    let fields ← pyGetItem record "fields"
    pyGetItem fields "summary"

/-- Source `JiraIssue.get_estimate`: under schema version 4 return
`record[fields][timeestimate][value]` unguarded; otherwise return
`record[fields][timeestimate] / 60 / 60`, catching `TypeError` and
`KeyError` to `None` (a bool divides as its numeric value, as in
Python). -/
def get_estimate (extra : Extra) (record : JVal) : Except PyErr JVal :=
  if extra.jira_version = some 4 then do
    let fields ← pyGetItem record "fields"
    let t ← pyGetItem fields "timeestimate"
    pyGetItem t "value"
  else
    match (do
        let fields ← pyGetItem record "fields"
        pyGetItem fields "timeestimate" : Except PyErr JVal) with
    | .ok (.num n) => .ok (.num (n / 60 / 60))
    | .ok (.bool b) => .ok (.num ((if b then 1 else 0) / 60 / 60))
    | .ok _ => .ok .null
    | .error .typeError => .ok .null
    | .error .keyError => .ok .null
    | .error e => .error e

/-- Source `JiraIssue.get_fix_version` before its `try/except`:
`record[fields].get(fixVersions, [\x7b\x7d])[0].get(name)`. -/
def fixVersionRaw (record : JVal) : Except PyErr JVal := do
  let fields ← pyGetItem record "fields"
  let fvs ← pyGet fields "fixVersions" (.arr [.obj []])
  let first ← pyIndex fvs 0
  pyGet first "name" .null

/-- Source `JiraIssue.get_fix_version`: the raw chain with `IndexError`,
`KeyError`, `AttributeError` and `TypeError` all caught to `None`. -/
def get_fix_version (record : JVal) : Except PyErr JVal :=
  match fixVersionRaw record with
  | .ok v => .ok v
  | .error .indexError => .ok .null
  | .error .keyError => .ok .null
  | .error .attributeError => .ok .null
  | .error .typeError => .ok .null
  | .error e => .error e

/-- Source `JiraIssue.to_taskwarrior`: the canonical record, a fixed dictionary
literal whose values come from the field mappers, evaluated in the
source order of the literal. -/
def to_taskwarrior (origin : Origin) (extra : Extra) (record : JVal) : Except PyErr (List (String × JVal)) := do
  let project ← get_project record
  let priority ← get_priority origin record
  let annots := get_annotations extra
  let tags ← get_tags origin record
  let entry ← get_entry record
  let url ← get_url origin record
  let foreignId ← pyGetItem record "key"
  let descr ← do
    let fields ← pyGet record "fields" (.obj [])
    pyGet fields "description" .null
  let summary ← get_summary extra record
  let estimate ← get_estimate extra record
  let fixVersion ← get_fix_version record
  .ok [("project", .str project), ("priority", .str priority),
       ("annotations", .arr (annots.map JVal.str)),
       ("tags", .arr (tags.map JVal.str)), ("entry", .str entry),
       ("jiraurl", .str url), ("jiraid", foreignId),
       ("jiradescription", descr), ("jirasummary", summary),
       ("jiraestimate", estimate), ("jirafixversion", fixVersion)]

/-- The per-case body of `JiraService.issues`: the schema version is the
configured `jira.version` (defaulting to 5); the extra metadata carries
it, and carries the comments fetched by the secondary `annotations` call
only when the version exceeds 4. The boolean records whether that
secondary fetch was performed at all. -/
def processCase (configVersion : Option Int) (comments : List String) : Bool × Extra :=
  let jiraVersion : Int := configVersion.getD 5
  if jiraVersion > 4 then (true, ⟨some jiraVersion, some comments⟩)
  else (false, ⟨some jiraVersion, none⟩)

/-- Source `JiraService.issues` over a fetched list of raw cases, each paired
with the comments its secondary fetch would return: the yielded stream
of (raw record, fetch-performed flag, extra metadata). -/
def issues (configVersion : Option Int) (cases : List (JVal × List String)) : List (JVal × Bool × Extra) :=
  cases.map (fun c => (c.1, processCase configVersion c.2))

/-- Concrete origin, extra metadata and payload used to exhibit a
successful end-to-end normalization, and the record it produces. -/
def c3origin : Origin := ⟨"https://jira.example", "M", false, "\x7b\x7blabel\x7d\x7d"⟩

def c3extra : Extra := ⟨some 5, some ["@alice - looks good"]⟩

def c3record : JVal :=
  .obj [("key", .str "PROJ-123"),
        ("fields", .obj [("created", .str "2015-01-02T03:04:05.000000+0000"),
                         ("summary", .str "a summary"),
                         ("description", .str "a description"),
                         ("priority", .obj [("name", .str "Blocker")]),
                         ("timeestimate", .num 18000),
                         ("labels", .arr [.str "feature"]),
                         ("fixVersions", .arr [.obj [("name", .str "1.0")]])])]

def c3result : List (String × JVal) :=
  (to_taskwarrior c3origin c3extra c3record).toOption.getD []

theorem exceptBind_ok {ε α β : Type} (x : Except ε α) (f : α → Except ε β) (b : β) :
    (x >>= f) = .ok b ↔ ∃ a, x = .ok a ∧ f a = .ok b := by
  cases x <;> simp [Bind.bind, Except.bind]

theorem exceptBind_error {ε α β : Type} (x : Except ε α) (f : α → Except ε β) (e : ε) :
    (x >>= f) = .error e ↔ x = .error e ∨ ∃ a, x = .ok a ∧ f a = .error e := by
  cases x <;> simp [Bind.bind, Except.bind]

theorem string_mk_data (s : String) : String.mk s.data = s := rfl

theorem string_append_cancel_left (s : String) {a b : String} (h : s ++ a = s ++ b) : a = b := by
  have hd : s.data ++ a.data = s.data ++ b.data := by
    have h2 := congrArg String.data h
    simpa [String.data_append] using h2
  have h3 : a.data = b.data := List.append_cancel_left hd
  calc a = String.mk a.data := rfl
  _ = String.mk b.data := by rw [h3]
  _ = b := rfl

/-- C1: for a fixed origin url, the unique key computed by `get_url` is
deterministic (repeating the computation on the identical payload yields
the identical value), and two payloads carrying string `key` fields get
equal unique keys exactly when those `key` fields are equal. -/
theorem get_url_unique_key (origin : Origin) (r1 r2 : JVal) (k1 k2 : String)
    (h1 : pyGetItem r1 "key" = .ok (.str k1))
    (h2 : pyGetItem r2 "key" = .ok (.str k2)) :
    get_url origin r1 = get_url origin r1 ∧
    (get_url origin r1 = get_url origin r2 ↔ k1 = k2) := by
  refine ⟨rfl, ?_⟩
  unfold get_url
  rw [h1, h2]
  simp only [Bind.bind, Except.bind]
  constructor
  · intro h
    have h3 : origin.url ++ "/browse/" ++ k1 = origin.url ++ "/browse/" ++ k2 :=
      Except.ok.inj h
    have h4 : origin.url ++ ("/browse/" ++ k1) = origin.url ++ ("/browse/" ++ k2) := by
      simpa [String.append_assoc] using h3
    exact string_append_cancel_left _ (string_append_cancel_left _ h4)
  · intro h
    rw [h]

/-- C1 witness at a concrete origin and two concrete payloads. -/
theorem get_url_unique_key_witness :
    get_url ⟨"https://j", "M", false, ""⟩ (.obj [("key", .str "PROJ-1")]) =
      get_url ⟨"https://j", "M", false, ""⟩ (.obj [("key", .str "PROJ-1")]) ∧
    (get_url ⟨"https://j", "M", false, ""⟩ (.obj [("key", .str "PROJ-1")]) =
      get_url ⟨"https://j", "M", false, ""⟩ (.obj [("key", .str "PROJ-2")]) ↔
      "PROJ-1" = "PROJ-2") :=
  get_url_unique_key ⟨"https://j", "M", false, ""⟩ (.obj [("key", .str "PROJ-1")])
    (.obj [("key", .str "PROJ-2")]) "PROJ-1" "PROJ-2" rfl rfl

/-- C8: with `import_labels_as_tags` off, `get_tags` is the empty list on
every payload and template. -/
theorem get_tags_disabled (origin : Origin) (record : JVal)
    (h : origin.import_labels_as_tags = false) :
    get_tags origin record = .ok [] := by
  simp [get_tags, h]

/-- C8 witness: a payload with labels still yields no tags when disabled. -/
theorem get_tags_disabled_witness :
    get_tags ⟨"u", "M", false, "t"⟩
      (.obj [("fields", .obj [("labels", .arr [.str "feature", .str "bug"])])]) = .ok [] :=
  get_tags_disabled ⟨"u", "M", false, "t"⟩
    (.obj [("fields", .obj [("labels", .arr [.str "feature", .str "bug"])])]) rfl

/-- C2: whenever the payload field dict has `priority` absent, null,
a bare string not in `PRIORITY_MAP`, or a composite `name`-carrying value
whose extracted name string is not in `PRIORITY_MAP`, `get_priority`
returns the configured default priority without raising. -/
theorem get_priority_default_exhaustive (origin : Origin) (rfs ffs : List (String × JVal))
    (hf : rfs.lookup "fields" = some (.obj ffs))
    (hshape : ffs.lookup "priority" = none ∨ ffs.lookup "priority" = some .null ∨
      (∃ s, ffs.lookup "priority" = some (.str s) ∧ PRIORITY_MAP.lookup s = none) ∨
      (∃ pfs s, ffs.lookup "priority" = some (.obj pfs) ∧
        pfs.lookup "name" = some (.str s) ∧ PRIORITY_MAP.lookup s = none)) :
    get_priority origin (.obj rfs) = .ok origin.default_priority := by
  have hNone : PRIORITY_MAP.lookup "None" = none := rfl
  rcases hshape with h | h | ⟨s, h, hs⟩ | ⟨pfs, s, h, hn, hs⟩
  · simp [get_priority, pyGetItem, pyGet, hf, h, priorityMapGet, pyStr, pyRepr,
      Bind.bind, Except.bind, pure, Except.pure, hNone]
  · simp [get_priority, pyGetItem, pyGet, hf, h, priorityMapGet, pyStr, pyRepr,
      Bind.bind, Except.bind, pure, Except.pure, hNone]
  · simp [get_priority, pyGetItem, pyGet, hf, h, priorityMapGet, pyStr,
      Bind.bind, Except.bind, pure, Except.pure, hs]
  · simp [get_priority, pyGetItem, pyGet, hf, h, hn, priorityMapGet,
      Bind.bind, Except.bind, pure, Except.pure, hs]

/-- C2 witness: priority absent under a concrete payload yields the
configured default. -/
theorem get_priority_default_exhaustive_witness :
    get_priority ⟨"u", "Z", false, "t"⟩ (.obj [("fields", .obj [("other", .null)])]) = .ok "Z" :=
  get_priority_default_exhaustive ⟨"u", "Z", false, "t"⟩ [("fields", .obj [("other", .null)])]
    [("other", .null)] rfl (Or.inl rfl)

/-- C10: with a configured schema version of at most 4, every yielded
case skips the secondary comments fetch and carries no annotation entry,
so `get_annotations` is empty on it; with no configured version the
version defaults to 5 and the comments fetch runs, its result stored as
the annotations. -/
theorem issues_version_gate (v : Int) (cases : List (JVal × List String)) (hv : v ≤ 4) :
    (∀ x ∈ issues (some v) cases,
      x.2.1 = false ∧ x.2.2.annotations = none ∧ get_annotations x.2.2 = []) ∧
    (∀ c ∈ cases, processCase (some v) c.2 = (false, ⟨some v, none⟩)) ∧
    (∀ c ∈ cases, processCase none c.2 = (true, ⟨some 5, some c.2⟩)) := by
  have h4 : ¬ ((5 : Int) ≤ 4) := by norm_num
  refine ⟨?_, ?_, ?_⟩
  · intro x hx
    simp only [issues, List.mem_map] at hx
    obtain ⟨c, _, hc⟩ := hx
    subst hc
    simp [processCase, get_annotations, show ¬ (v > 4) from by omega]
  · intro c _
    simp [processCase, show ¬ (v > 4) from by omega]
  · intro c _
    simp [processCase]

/-- C10 witness: one concrete case under version 4 and under the default. -/
theorem issues_version_gate_witness :
    (∀ x ∈ issues (some 4) [(.null, ["@a - b"])],
      x.2.1 = false ∧ x.2.2.annotations = none ∧ get_annotations x.2.2 = []) ∧
    (∀ c ∈ [((JVal.null, ["@a - b"]) : JVal × List String)],
      processCase (some 4) c.2 = (false, ⟨some 4, none⟩)) ∧
    (∀ c ∈ [((JVal.null, ["@a - b"]) : JVal × List String)],
      processCase none c.2 = (true, ⟨some 5, some c.2⟩)) :=
  issues_version_gate 4 [(.null, ["@a - b"])] (by norm_num)

theorem pyGetItem_error_cases (v : JVal) (k : String) (e : PyErr)
    (h : pyGetItem v k = .error e) : e = .keyError ∨ e = .typeError := by
  cases v <;> simp [pyGetItem] at h <;> try exact Or.inr h.symm
  rename_i fs
  rcases hl : fs.lookup k with _ | x <;> rw [hl] at h <;> simp at h
  exact Or.inl h.symm

theorem pyGet_error_cases (v : JVal) (k : String) (d : JVal) (e : PyErr)
    (h : pyGet v k d = .error e) : e = .attributeError := by
  cases v <;> simp [pyGet] at h <;> exact h.symm

theorem pyIndex_error_cases (v : JVal) (i : Nat) (e : PyErr)
    (h : pyIndex v i = .error e) :
    e = .indexError ∨ e = .keyError ∨ e = .typeError := by
  cases v <;> simp [pyIndex] at h
  case bool => exact Or.inr (Or.inr h.symm)
  case null => exact Or.inr (Or.inr h.symm)
  case num => exact Or.inr (Or.inr h.symm)
  case obj => exact Or.inr (Or.inl h.symm)
  case arr xs =>
    rcases hl : xs[i]? with _ | x
    · rw [hl] at h
      simp at h
      exact Or.inl h.symm
    · rw [hl] at h
      simp at h
  case str s =>
    rcases hl : s.data[i]? with _ | c
    · rw [hl] at h
      simp at h
      exact Or.inl h.symm
    · rw [hl] at h
      simp at h

theorem fixVersionRaw_error_caught (record : JVal) (e : PyErr)
    (h : fixVersionRaw record = .error e) :
    e = .indexError ∨ e = .keyError ∨ e = .attributeError ∨ e = .typeError := by
  unfold fixVersionRaw at h
  rcases (exceptBind_error _ _ _).mp h with h1 | ⟨fields, _, h1⟩
  · rcases pyGetItem_error_cases _ _ _ h1 with h2 | h2
    · exact Or.inr (Or.inl h2)
    · exact Or.inr (Or.inr (Or.inr h2))
  rcases (exceptBind_error _ _ _).mp h1 with h2 | ⟨fvs, _, h2⟩
  · exact Or.inr (Or.inr (Or.inl (pyGet_error_cases _ _ _ _ h2)))
  rcases (exceptBind_error _ _ _).mp h2 with h3 | ⟨first, _, h3⟩
  · rcases pyIndex_error_cases _ _ _ h3 with h4 | h4 | h4
    · exact Or.inl h4
    · exact Or.inr (Or.inl h4)
    · exact Or.inr (Or.inr (Or.inr h4))
  · exact Or.inr (Or.inr (Or.inl (pyGet_error_cases _ _ _ _ h3)))

/-- C5: `get_fix_version` never raises (for every payload it returns some
value); it returns the `name` of the first `fixVersions` entry whenever
that entry is a dict carrying a name; and each structural failure —
empty list, missing `fixVersions` key, a null container, or a first
entry that is not a dict — yields null. -/
theorem get_fix_version_spec (record : JVal) :
    (∃ v, get_fix_version record = .ok v) ∧
    (∀ rfs ffs efs rest nameV,
      record = .obj rfs →
      rfs.lookup "fields" = some (.obj ffs) →
      ffs.lookup "fixVersions" = some (.arr (.obj efs :: rest)) →
      efs.lookup "name" = some nameV →
      get_fix_version record = .ok nameV) ∧
    (∀ rfs ffs,
      record = .obj rfs →
      rfs.lookup "fields" = some (.obj ffs) →
      (ffs.lookup "fixVersions" = some (.arr []) ∨
        ffs.lookup "fixVersions" = none ∨
        ffs.lookup "fixVersions" = some .null ∨
        (∃ s rest, ffs.lookup "fixVersions" = some (.arr (.str s :: rest))) ∨
        (∃ n rest, ffs.lookup "fixVersions" = some (.arr (.num n :: rest)))) →
      get_fix_version record = .ok .null) := by
  refine ⟨?_, ?_, ?_⟩
  · rcases hr : fixVersionRaw record with e | v
    · refine ⟨.null, ?_⟩
      rcases fixVersionRaw_error_caught record e hr with h | h | h | h <;>
        subst h <;> simp [get_fix_version, hr]
    · exact ⟨v, by simp [get_fix_version, hr]⟩
  · intro rfs ffs efs rest nameV hrec hf hfv hn
    subst hrec
    simp [get_fix_version, fixVersionRaw, pyGetItem, pyGet, pyIndex, hf, hfv, hn,
      Bind.bind, Except.bind]
  · intro rfs ffs hrec hf hshape
    subst hrec
    rcases hshape with h | h | h | ⟨s, rest, h⟩ | ⟨n, rest, h⟩ <;>
      simp [get_fix_version, fixVersionRaw, pyGetItem, pyGet, pyIndex, hf, h,
        Bind.bind, Except.bind]

/-- C5 witness: a concrete payload with a named first fix version, and the
totality and null cases instantiated there. -/
theorem get_fix_version_spec_witness :
    get_fix_version (.obj [("fields", .obj [("fixVersions",
      .arr [.obj [("name", .str "1.0")], .obj [("name", .str "2.0")]])])]) = .ok (.str "1.0") :=
  (get_fix_version_spec _).2.1 [("fields", .obj [("fixVersions",
      .arr [.obj [("name", .str "1.0")], .obj [("name", .str "2.0")]])])]
    [("fixVersions", .arr [.obj [("name", .str "1.0")], .obj [("name", .str "2.0")]])]
    [("name", .str "1.0")] [.obj [("name", .str "2.0")]] (.str "1.0") rfl rfl rfl rfl

/-- C4 counterexample: under the legacy schema (version 4) a payload with
`fields` present but `timeestimate` missing makes `get_estimate` raise
`KeyError` — the nested legacy lookup is outside the `try` block — so the
claim that a missing key yields null under every schema version is false. -/
theorem get_estimate_v4_missing_key_raises :
    get_estimate ⟨some 4, none⟩ (.obj [("fields", .obj [])]) = .error .keyError ∧
    get_estimate ⟨some 4, none⟩ (.obj [("fields", .obj [])]) ≠ .ok .null := by
  have h : get_estimate ⟨some 4, none⟩ (.obj [("fields", .obj [])]) = .error .keyError := rfl
  refine ⟨h, ?_⟩
  intro h2
  rw [h] at h2
  exact Except.noConfusion h2

/-- C4 amended: under the legacy schema (version 4) `\x7bvalue: 5\x7d`
yields `5` (with no absorption of structural errors); under the current
schema a bare `timeestimate` of 18000 seconds yields 5 hours, and any
missing key or type error in the lookup chain — as well as a
non-numeric `timeestimate` value — yields null rather than raising. -/
theorem get_estimate_amended (extra : Extra) (hv : extra.jira_version ≠ some 4) :
    (∀ extra4 : Extra, extra4.jira_version = some 4 →
      ∀ (v : JVal) (rfs ffs tfs : List (String × JVal)),
        rfs.lookup "fields" = some (.obj ffs) →
        ffs.lookup "timeestimate" = some (.obj tfs) →
        tfs.lookup "value" = some v →
        get_estimate extra4 (.obj rfs) = .ok v) ∧
    (∀ rfs ffs : List (String × JVal),
        rfs.lookup "fields" = some (.obj ffs) →
        ffs.lookup "timeestimate" = some (.num 18000) →
        get_estimate extra (.obj rfs) = .ok (.num 5)) ∧
    (∀ (record : JVal) (e : PyErr),
        (pyGetItem record "fields" >>= (pyGetItem · "timeestimate")) = .error e →
        get_estimate extra record = .ok .null) ∧
    (∀ (record v : JVal),
        (pyGetItem record "fields" >>= (pyGetItem · "timeestimate")) = .ok v →
        (v = .null ∨ (∃ s, v = .str s) ∨ (∃ xs, v = .arr xs) ∨ (∃ fs, v = .obj fs)) →
        get_estimate extra record = .ok .null) := by
  refine ⟨?_, ?_, ?_, ?_⟩
  · intro extra4 h4 v rfs ffs tfs hf ht hval
    simp [get_estimate, h4, pyGetItem, hf, ht, hval, Bind.bind, Except.bind]
  · intro rfs ffs hf ht
    have h5 : ((18000 : ℚ) / 60 / 60) = 5 := by norm_num
    simp [get_estimate, hv, pyGetItem, hf, ht, Bind.bind, Except.bind, h5]
  · intro record e hchain
    have he : e = .keyError ∨ e = .typeError := by
      rcases (exceptBind_error _ _ _).mp hchain with h1 | ⟨fields, _, h1⟩
      · exact pyGetItem_error_cases _ _ _ h1
      · exact pyGetItem_error_cases _ _ _ h1
    rw [get_estimate, if_neg hv]
    rcases he with h | h <;> subst h <;> rw [hchain]
  · intro record v hchain hshape
    rw [get_estimate, if_neg hv, hchain]
    rcases hshape with h | ⟨s, h⟩ | ⟨xs, h⟩ | ⟨fs, h⟩ <;> subst h <;> rfl

/-- C4 amended witness: the three documented behaviours at concrete
payloads — legacy nested value, current-schema 18000 seconds, and a
missing `timeestimate` key. -/
theorem get_estimate_amended_witness :
    get_estimate ⟨some 4, none⟩
      (.obj [("fields", .obj [("timeestimate", .obj [("value", .num 5)])])]) = .ok (.num 5) ∧
    get_estimate ⟨some 5, none⟩
      (.obj [("fields", .obj [("timeestimate", .num 18000)])]) = .ok (.num 5) ∧
    get_estimate ⟨some 5, none⟩ (.obj [("fields", .obj [])]) = .ok .null := by
  have h := get_estimate_amended ⟨some 5, none⟩ (by simp)
  exact ⟨h.1 ⟨some 4, none⟩ rfl (.num 5) [("fields", .obj [("timeestimate", .obj [("value", .num 5)])])]
      [("timeestimate", .obj [("value", .num 5)])] [("value", .num 5)] rfl rfl rfl,
    h.2.1 [("fields", .obj [("timeestimate", .num 18000)])] [("timeestimate", .num 18000)] rfl rfl,
    h.2.2.1 (.obj [("fields", .obj [])]) .keyError rfl⟩

/-- C3: whenever `to_taskwarrior` succeeds, the produced record carries
exactly the fixed key list — project, priority, annotations, tags, entry,
jiraurl, jiraid, jiradescription, jirasummary, jiraestimate,
jirafixversion — in the order of the source dictionary literal; absent
source data can only surface as a default value under its key, never as
a missing key. -/
theorem to_taskwarrior_fixed_keys (origin : Origin) (extra : Extra) (record : JVal)
    (m : List (String × JVal)) (h : to_taskwarrior origin extra record = .ok m) :
    m.map Prod.fst = ["project", "priority", "annotations", "tags", "entry", "jiraurl",
      "jiraid", "jiradescription", "jirasummary", "jiraestimate", "jirafixversion"] := by
  rw [to_taskwarrior] at h
  simp only [exceptBind_ok] at h
  obtain ⟨p1, -, p2, -, p3, -, p4, -, p5, -, p6, -, p7, -, p8, -, p9, -, p10, -, p11, -, h⟩ := h
  have hm := Except.ok.inj h
  rw [← hm]
  rfl

/-- C3 witness: a concrete successful normalization, whose key list is
the fixed one. -/
theorem to_taskwarrior_fixed_keys_witness :
    c3result.map Prod.fst = ["project", "priority", "annotations", "tags", "entry", "jiraurl",
      "jiraid", "jiradescription", "jirasummary", "jiraestimate", "jirafixversion"] :=
  to_taskwarrior_fixed_keys c3origin c3extra c3record c3result rfl

theorem lookup_dictUpdate (d : List (String × JVal)) (k : String) (v : JVal) :
    (dictUpdate d k v).lookup k = some v := by
  induction d with
  | nil => simp [dictUpdate, List.lookup]
  | cons p ps ih =>
    obtain ⟨a, b⟩ := p
    by_cases hp : a = k
    · simp [dictUpdate, hp, List.lookup]
    · have hb : (k == a) = false := beq_eq_false_iff_ne.mpr (fun h => hp h.symm)
      simp only [dictUpdate, if_neg hp]
      rw [List.lookup, hb]
      exact ih

theorem dictUpdate_dictUpdate (d : List (String × JVal)) (k : String) (v w : JVal) :
    dictUpdate (dictUpdate d k v) k w = dictUpdate d k w := by
  induction d with
  | nil => simp [dictUpdate]
  | cons p ps ih =>
    obtain ⟨a, b⟩ := p
    by_cases hp : a = k
    · simp [dictUpdate, hp]
    · simp [dictUpdate, hp, ih]

theorem tagsLoop_update_absorb (tmpl : String) (ctx : List (String × JVal)) (w : JVal)
    (ls : List JVal) :
    tagsLoop tmpl (dictUpdate ctx "label" w) ls = tagsLoop tmpl ctx ls := by
  cases ls with
  | nil => rfl
  | cons l ls => simp only [tagsLoop, dictUpdate_dictUpdate]

theorem tagsLoop_eq_map (tmpl : String) (ctx : List (String × JVal)) (ls : List JVal) :
    tagsLoop tmpl ctx ls = ls.map (fun l => renderTemplate tmpl (dictUpdate ctx "label" l)) := by
  induction ls with
  | nil => rfl
  | cons l ls ih =>
    simp only [tagsLoop, List.map, tagsLoop_update_absorb, ih]

theorem renderTemplate_identity (ctx : List (String × JVal)) :
    renderTemplate "\x7b\x7blabel\x7d\x7d" ctx =
      match ctx.lookup "label" with
      | some v => pyStr v
      | none => "" := by
  have h : renderTemplate "\x7b\x7blabel\x7d\x7d" ctx =
      (match ctx.lookup "label" with
       | some v => pyStr v
       | none => "") ++ renderChars ctx 9 [] := rfl
  rw [h]
  cases ctx.lookup "label" <;> simp [renderChars]

/-- C9: with label import enabled, `get_tags` renders one entry per
label, in input order, against the record context updated with that
label; with the identity template the output is exactly the input
labels list. -/
theorem get_tags_identity_template (origin : Origin) (rfs ffs : List (String × JVal))
    (labels : List String)
    (himp : origin.import_labels_as_tags = true)
    (hf : rfs.lookup "fields" = some (.obj ffs))
    (hl : ffs.lookup "labels" = some (.arr (labels.map JVal.str))) :
    get_tags origin (.obj rfs) =
      .ok (labels.map (fun l =>
        renderTemplate origin.label_template (dictUpdate rfs "label" (.str l)))) ∧
    (origin.label_template = "\x7b\x7blabel\x7d\x7d" →
      get_tags origin (.obj rfs) = .ok labels) := by
  have hmain : get_tags origin (.obj rfs) =
      .ok (tagsLoop origin.label_template rfs (labels.map JVal.str)) := by
    simp [get_tags, himp, pyGet, hf, hl, pyIter, Bind.bind, Except.bind]
  constructor
  · rw [hmain, tagsLoop_eq_map, List.map_map]
    rfl
  · intro ht
    rw [hmain, tagsLoop_eq_map, List.map_map, ht]
    have hall : ∀ l ∈ labels,
        ((fun x => renderTemplate "\x7b\x7blabel\x7d\x7d" (dictUpdate rfs "label" x)) ∘
          JVal.str) l = id l := by
      intro l _
      simp only [Function.comp, id]
      rw [renderTemplate_identity, lookup_dictUpdate]
      rfl
    rw [List.map_congr_left hall, List.map_id]

/-- C9 witness: labels `["feature", "bug"]` under the identity template
come out unchanged and in order. -/
theorem get_tags_identity_template_witness :
    get_tags ⟨"u", "M", true, "\x7b\x7blabel\x7d\x7d"⟩
      (.obj [("fields", .obj [("labels", .arr [.str "feature", .str "bug"])])]) =
      .ok ["feature", "bug"] :=
  (get_tags_identity_template ⟨"u", "M", true, "\x7b\x7blabel\x7d\x7d"⟩
    [("fields", .obj [("labels", .arr [.str "feature", .str "bug"])])]
    [("labels", .arr [.str "feature", .str "bug"])] ["feature", "bug"] rfl rfl rfl).2 rfl

theorem optionBind_some {α β : Type} (x : Option α) (f : α → Option β) (b : β) :
    (x >>= f) = some b ↔ ∃ a, x = some a ∧ f a = some b := by
  cases x <;> simp

theorem digitVal_le (c : Char) (h : isDigitChar c = true) : digitVal c ≤ 9 := by
  unfold isDigitChar at h
  unfold digitVal
  simp at h
  omega

theorem digitChar_spec (n : Nat) :
    isDigitChar (digitChar n) = true ∧ digitVal (digitChar n) = n % 10 := by
  have h : n % 10 < 10 := Nat.mod_lt _ (by norm_num)
  unfold digitChar digitVal
  generalize n % 10 = m at h ⊢
  interval_cases m <;> exact ⟨rfl, rfl⟩

theorem expectChar_cons (c : Char) (rest : List Char) : expectChar c (c :: rest) = some rest := by
  simp [expectChar]

theorem parse2_pad2 (n : Nat) (h : n ≤ 99) (rest : List Char) :
    parse2 ((pad2 n).data ++ rest) = some (n, rest) := by
  have h1 := digitChar_spec (n / 10)
  have h2 := digitChar_spec n
  have hd : (pad2 n).data = [digitChar (n / 10), digitChar n] := rfl
  rw [hd]
  simp [parse2, h1.1, h2.1, h1.2, h2.2]
  omega

theorem parse4_pad4 (n : Nat) (h : n ≤ 9999) (rest : List Char) :
    parse4 ((pad4 n).data ++ rest) = some (n, rest) := by
  have h1 := digitChar_spec (n / 1000)
  have h2 := digitChar_spec (n / 100)
  have h3 := digitChar_spec (n / 10)
  have h4 := digitChar_spec n
  have hd : (pad4 n).data =
      [digitChar (n / 1000), digitChar (n / 100), digitChar (n / 10), digitChar n] := rfl
  rw [hd]
  simp [parse4, h1.1, h2.1, h3.1, h4.1, h1.2, h2.2, h3.2, h4.2]
  omega

theorem parse2_le (cs : List Char) (n : Nat) (rest : List Char)
    (h : parse2 cs = some (n, rest)) : n ≤ 99 := by
  cases cs with
  | nil => simp [parse2] at h
  | cons c1 cs1 =>
    cases cs1 with
    | nil => simp [parse2] at h
    | cons c2 r =>
      rw [parse2] at h
      split at h
      · rename_i hcond
        rw [Bool.and_eq_true] at hcond
        have hd1 := digitVal_le c1 hcond.1
        have hd2 := digitVal_le c2 hcond.2
        have hn : 10 * digitVal c1 + digitVal c2 = n := by
          have := Option.some.inj h
          exact congrArg Prod.fst this
        omega
      · exact absurd h (by simp)

theorem parse4_le (cs : List Char) (n : Nat) (rest : List Char)
    (h : parse4 cs = some (n, rest)) : n ≤ 9999 := by
  match cs with
  | [] => simp [parse4] at h
  | [_] => simp [parse4] at h
  | [_, _] => simp [parse4] at h
  | [_, _, _] => simp [parse4] at h
  | c1 :: c2 :: c3 :: c4 :: r =>
    rw [parse4] at h
    split at h
    · rename_i hcond
      rw [Bool.and_eq_true, Bool.and_eq_true, Bool.and_eq_true] at hcond
      have hd1 := digitVal_le c1 hcond.1.1.1
      have hd2 := digitVal_le c2 hcond.1.1.2
      have hd3 := digitVal_le c3 hcond.1.2
      have hd4 := digitVal_le c4 hcond.2
      have hn : 1000 * digitVal c1 + 100 * digitVal c2 + 10 * digitVal c3 + digitVal c4 = n := by
        have := Option.some.inj h
        exact congrArg Prod.fst this
      omega
    · exact absurd h (by simp)

theorem normalizeDate_split (p tz : String) (htz : tz.length = 5) :
    normalizeDate (p ++ tz) =
      match strptimeISO p with
      | some dt => .ok (strftimeCompact dt ++ tz)
      | none => .error .valueError := by
  have hlen : tz.data.length = 5 := htz
  have hdata : (p ++ tz).data = p.data ++ tz.data := String.data_append p tz
  have hl : (p.data ++ tz.data).length - 5 = p.data.length := by
    simp [List.length_append, hlen]
  have htake : (p ++ tz).data.take ((p ++ tz).data.length - 5) = p.data := by
    rw [hdata, hl]
    exact List.take_left p.data tz.data
  have hdrop : (p ++ tz).data.drop ((p ++ tz).data.length - 5) = tz.data := by
    rw [hdata, hl]
    exact List.drop_left p.data tz.data
  simp only [normalizeDate, htake, hdrop, string_mk_data]

theorem strptimeISO_shape (s : String) (dt : PyDateTime) (h : strptimeISO s = some dt) :
    1 ≤ dt.month ∧ dt.month ≤ 12 ∧ 1 ≤ dt.day ∧ dt.day ≤ daysInMonth dt.year dt.month ∧
    dt.hour ≤ 23 ∧ dt.minute ≤ 59 ∧ dt.second ≤ 59 ∧ 1 ≤ dt.year ∧ dt.year ≤ 9999 := by
  simp only [strptimeISO, optionBind_some] at h
  obtain ⟨⟨y, cs1⟩, hy, h⟩ := h
  simp only [optionBind_some] at h
  obtain ⟨cs2, -, h⟩ := h
  obtain ⟨⟨mo, cs3⟩, -, h⟩ := h
  obtain ⟨cs4, -, h⟩ := h
  obtain ⟨⟨d, cs5⟩, -, h⟩ := h
  obtain ⟨cs6, -, h⟩ := h
  obtain ⟨⟨hh, cs7⟩, -, h⟩ := h
  obtain ⟨cs8, -, h⟩ := h
  obtain ⟨⟨mi, cs9⟩, -, h⟩ := h
  obtain ⟨cs10, -, h⟩ := h
  obtain ⟨⟨se, cs11⟩, -, h⟩ := h
  obtain ⟨cs12, -, h⟩ := h
  obtain ⟨mic, -, h⟩ := h
  have hy9999 : y ≤ 9999 := parse4_le _ _ _ hy
  split at h
  · rename_i hcond
    have hdt := Option.some.inj h
    subst hdt
    exact ⟨hcond.1, hcond.2.1, hcond.2.2.1, hcond.2.2.2.1, hcond.2.2.2.2.1,
      hcond.2.2.2.2.2.1, hcond.2.2.2.2.2.2.1, hcond.2.2.2.2.2.2.2, hy9999⟩
  · exact absurd h (by simp)

theorem daysInMonth_le (y m : Nat) : daysInMonth y m ≤ 31 := by
  unfold daysInMonth
  split
  · split <;> norm_num
  · split <;> norm_num

theorem strptimeISO_isoRenderZero (dt : PyDateTime)
    (h1 : 1 ≤ dt.month) (h2 : dt.month ≤ 12) (h3 : 1 ≤ dt.day)
    (h4 : dt.day ≤ daysInMonth dt.year dt.month) (h5 : dt.hour ≤ 23)
    (h6 : dt.minute ≤ 59) (h7 : dt.second ≤ 59) (h8 : 1 ≤ dt.year) (h9 : dt.year ≤ 9999) :
    strptimeISO (isoRenderZero dt) =
      some ⟨dt.year, dt.month, dt.day, dt.hour, dt.minute, dt.second, 0⟩ := by
  have hdata : (isoRenderZero dt).data =
      (pad4 dt.year).data ++ (Char.ofNat 45 :: ((pad2 dt.month).data ++ (Char.ofNat 45 ::
        ((pad2 dt.day).data ++ (Char.ofNat 84 :: ((pad2 dt.hour).data ++ (Char.ofNat 58 ::
          ((pad2 dt.minute).data ++ (Char.ofNat 58 ::
            ((pad2 dt.second).data ++ [Char.ofNat 46, Char.ofNat 48])))))))))) := rfl
  rw [strptimeISO]
  rw [hdata]
  rw [parse4_pad4 dt.year h9]
  simp only [Option.bind_eq_bind, Option.some_bind]
  rw [expectChar_cons, Option.some_bind, parse2_pad2 dt.month (by omega), Option.some_bind,
    expectChar_cons, Option.some_bind,
    parse2_pad2 dt.day (by have := daysInMonth_le dt.year dt.month; omega), Option.some_bind,
    expectChar_cons, Option.some_bind, parse2_pad2 dt.hour (by omega), Option.some_bind,
    expectChar_cons, Option.some_bind, parse2_pad2 dt.minute (by omega), Option.some_bind,
    expectChar_cons, Option.some_bind, parse2_pad2 dt.second (by omega), Option.some_bind,
    expectChar_cons, Option.some_bind]
  have hfrac : parseFracTail [Char.ofNat 48] = some 0 := rfl
  rw [hfrac, Option.some_bind]
  rw [if_pos ⟨h1, h2, h3, h4, h5, h6, h7, h8⟩]

/-- C6: for a `created` string made of a parseable
`%Y-%m-%dT%H:%M:%S.%f` prefix followed by a five-character offset
suffix, `get_entry` returns the compact `%Y%m%dT%H%M%S` rendering of
the parsed timestamp with exactly the original five offset characters
appended verbatim; the rendering ignores the microsecond field, so
sub-second precision is discarded. -/
theorem get_entry_offset_preserved (rfs ffs : List (String × JVal)) (p tz : String)
    (dt : PyDateTime)
    (hf : rfs.lookup "fields" = some (.obj ffs))
    (hc : ffs.lookup "created" = some (.str (p ++ tz)))
    (htz : tz.length = 5) (hp : strptimeISO p = some dt) :
    get_entry (.obj rfs) = .ok (strftimeCompact dt ++ tz) ∧
    strftimeCompact dt =
      strftimeCompact ⟨dt.year, dt.month, dt.day, dt.hour, dt.minute, dt.second, 0⟩ := by
  constructor
  · have hge : get_entry (.obj rfs) = normalizeDate (p ++ tz) := by
      simp [get_entry, pyGetItem, hf, hc, Bind.bind, Except.bind]
    rw [hge, normalizeDate_split p tz htz, hp]
  · rfl

/-- C6 witness: a concrete created timestamp with a `+0000` offset. -/
theorem get_entry_offset_preserved_witness :
    get_entry (.obj [("fields", .obj [("created", .str "2015-01-02T03:04:05.000000+0000")])]) =
      .ok "20150102T030405+0000" :=
  (get_entry_offset_preserved
    [("fields", .obj [("created", .str "2015-01-02T03:04:05.000000+0000")])]
    [("created", .str "2015-01-02T03:04:05.000000+0000")]
    "2015-01-02T03:04:05.000000" "+0000" ⟨2015, 1, 2, 3, 4, 5, 0⟩ rfl rfl rfl rfl).1

/-- C7 counterexample: the normalization of `get_entry` is not
idempotent as a string function — its output is not in its own input
format, so renormalizing the output raises `ValueError` instead of
returning the output again. -/
theorem normalizeDate_not_idempotent :
    normalizeDate "2015-01-02T03:04:05.000000+0000" = .ok "20150102T030405+0000" ∧
    (normalizeDate "2015-01-02T03:04:05.000000+0000" >>= normalizeDate) = .error .valueError ∧
    (normalizeDate "2015-01-02T03:04:05.000000+0000" >>= normalizeDate) ≠
      normalizeDate "2015-01-02T03:04:05.000000+0000" := by
  refine ⟨rfl, rfl, ?_⟩
  intro h
  rw [show (normalizeDate "2015-01-02T03:04:05.000000+0000" >>= normalizeDate) =
    .error .valueError from rfl] at h
  rw [show normalizeDate "2015-01-02T03:04:05.000000+0000" =
    .ok "20150102T030405+0000" from rfl] at h
  exact Except.noConfusion h

/-- C7 amended: normalization is idempotent at the level of the
timestamp content rather than as a direct string self-composition: for
every valid input, re-encoding the parsed (sub-second-truncated)
timestamp back into the input format with a zero fraction and the same
offset and normalizing again yields exactly the original normalized
output. -/
theorem normalizeDate_idempotent_reencoded (p tz : String) (dt : PyDateTime)
    (htz : tz.length = 5) (hp : strptimeISO p = some dt) :
    normalizeDate (isoRenderZero dt ++ tz) = normalizeDate (p ++ tz) ∧
    normalizeDate (p ++ tz) = .ok (strftimeCompact dt ++ tz) := by
  obtain ⟨h1, h2, h3, h4, h5, h6, h7, h8, h9⟩ := strptimeISO_shape p dt hp
  have hround := strptimeISO_isoRenderZero dt h1 h2 h3 h4 h5 h6 h7 h8 h9
  rw [normalizeDate_split (isoRenderZero dt) tz htz, normalizeDate_split p tz htz, hp, hround]
  exact ⟨rfl, rfl⟩

/-- C7 amended witness: the re-encoded normalization at a concrete
timestamp reproduces the original normalized value. -/
theorem normalizeDate_idempotent_reencoded_witness :
    normalizeDate (isoRenderZero ⟨2015, 1, 2, 3, 4, 5, 0⟩ ++ "+0000") =
      normalizeDate ("2015-01-02T03:04:05.000000" ++ "+0000") ∧
    normalizeDate ("2015-01-02T03:04:05.000000" ++ "+0000") =
      .ok (strftimeCompact ⟨2015, 1, 2, 3, 4, 5, 0⟩ ++ "+0000") :=
  normalizeDate_idempotent_reencoded "2015-01-02T03:04:05.000000" "+0000"
    ⟨2015, 1, 2, 3, 4, 5, 0⟩ rfl rfl
